import Mathlib

/-!
Verification of the Flip-Radar core: geospatial-temporal filtering and
per-buyer aggregation of real-estate purchase events, plus the circular
boundary polygon generator.

Shallow embedding conventions:
* JavaScript numbers used in geometric formulas become real numbers;
  prices become rationals (their arithmetic here is exact).
* JavaScript Date values are modelled at day precision as calendar
  triples (year, 0-based month, day), ordered lexicographically; this is
  the chronological order for normalized dates.  `monthsAgo` mirrors
  `d.setMonth(d.getMonth() - n)` including calendar rollover.
* The grouping object `byBuyer` keyed by non-numeric strings preserves
  insertion order in JavaScript, so it is modelled as a list of groups
  appended in insertion order; `Object.values` is the identity on it.
* `Array.prototype.sort` is stable (ES2019), so it is modelled by
  `List.mergeSort`, which is sorted and stable for a total transitive
  comparison; a stable sort's output is unique, so this is exact.
* The non-null assertions `find(...)!` crash the query on a dangling
  reference; this fallibility is modelled with `Except`.
* The code reads the wall clock (`new Date()` inside `monthsAgo`), so the
  current date `now` is surfaced as an explicit input of the model.
-/

inductive BuyerType
  | flipper
  | landlord
  | cash
  | unknown
deriving DecidableEq, Repr

structure Contact where
  phone : Option String
  email : Option String
deriving DecidableEq, Repr

structure Buyer where
  id : String
  name : String
  buyer_type : BuyerType
  contacts : List Contact
deriving DecidableEq, Repr

structure Property where
  id : String
  addr1 : String
  city : String
  state : String
  zip : String
  lat : ℝ
  lon : ℝ

inductive EventType
  | purchase
  | sale
deriving DecidableEq, Repr

inductive EventSource
  | county
  | mls
  | manual
deriving DecidableEq, Repr

/-- Calendar date at day precision: year, 0-based month (JavaScript style),
day of month. -/
structure CDate where
  year : Int
  month : Nat
  day : Nat
deriving DecidableEq, Repr

/-- Chronological order on normalized calendar dates (lexicographic). -/
def CDate.le (a b : CDate) : Prop :=
  a.year < b.year ∨ (a.year = b.year ∧ (a.month < b.month ∨ (a.month = b.month ∧ a.day ≤ b.day)))

/-- Strict chronological order on normalized calendar dates. -/
def CDate.lt (a b : CDate) : Prop :=
  a.year < b.year ∨ (a.year = b.year ∧ (a.month < b.month ∨ (a.month = b.month ∧ a.day < b.day)))

instance (a b : CDate) : Decidable (CDate.le a b) := by
  unfold CDate.le; exact inferInstance

instance (a b : CDate) : Decidable (CDate.lt a b) := by
  unfold CDate.lt; exact inferInstance

def isLeap (y : Int) : Bool :=
  (y % 4 == 0 && y % 100 != 0) || y % 400 == 0

/-- Number of days of 0-based month `m` in year `y`. -/
def daysInMonth (y : Int) (m : Nat) : Nat :=
  if m = 1 then (if isLeap y then 29 else 28)
  else if m = 3 ∨ m = 5 ∨ m = 8 ∨ m = 10 then 30
  else 31

/-- The calendar date with absolute month index `t` (year times 12 plus
0-based month, floor convention for negative `t` as in JavaScript) and day
number `day`, normalized with JavaScript day rollover: a day number past
the end of the month rolls into the following month. -/
def dateOfMonthIndex (t : Int) (day : Nat) : CDate :=
  if day ≤ daysInMonth (t / 12) (t % 12).toNat then
    ⟨t / 12, (t % 12).toNat, day⟩
  else
    ⟨(t + 1) / 12, ((t + 1) % 12).toNat, day - daysInMonth (t / 12) (t % 12).toNat⟩

/-- Model of `monthsAgo`: `d = new Date(); d.setMonth(d.getMonth() - n)`,
at day precision, with `now` the current date read from the clock. -/
def monthsAgo (now : CDate) (n : Int) : CDate :=
  dateOfMonthIndex (now.year * 12 + (now.month : Int) - n) now.day

/-- A latitude/longitude pair, as the `{lat, lon}` records of the source. -/
structure GeoPt where
  lat : ℝ
  lon : ℝ

noncomputable def toRad (x : ℝ) : ℝ := x * Real.pi / 180

noncomputable def toDeg (r : ℝ) : ℝ := r * 180 / Real.pi

/-- Model of `distanceMiles`: haversine great-circle distance in miles,
Earth radius 3958.8 miles. -/
noncomputable def distanceMiles (a b : GeoPt) : ℝ :=
  let dLat := toRad (b.lat - a.lat)
  let dLon := toRad (b.lon - a.lon)
  let lat1 := toRad a.lat
  let lat2 := toRad b.lat
  let h := Real.sin (dLat / 2) ^ 2 + Real.cos lat1 * Real.cos lat2 * Real.sin (dLon / 2) ^ 2
  2 * 3958.8 * Real.arcsin (Real.sqrt h)

/-- Model of `Math.atan2 y x` on the reals. -/
noncomputable def atan2 (y x : ℝ) : ℝ :=
  if 0 < x then Real.arctan (y / x)
  else if x < 0 ∧ 0 ≤ y then Real.arctan (y / x) + Real.pi
  else if x < 0 ∧ y < 0 then Real.arctan (y / x) - Real.pi
  else if 0 < y then Real.pi / 2
  else if y < 0 then -(Real.pi / 2)
  else 0

/-- The coordinate pushed at loop index `i` of `circlePolygon` (a
longitude/latitude pair, as in the source). -/
noncomputable def circleCoord (lon lat radiusMiles : ℝ) (points i : ℕ) : ℝ × ℝ :=
  let brng := (i : ℝ) / (points : ℝ) * 2 * Real.pi
  let latR := toRad lat
  let lonR := toRad lon
  let angDist := radiusMiles / 3958.8
  let lat2 := Real.arcsin
    (Real.sin latR * Real.cos angDist + Real.cos latR * Real.sin angDist * Real.cos brng)
  let lon2 := lonR + atan2 (Real.sin brng * Real.sin angDist * Real.cos latR)
    (Real.cos angDist - Real.sin latR * Real.sin lat2)
  (toDeg lon2, toDeg lat2)

/-- Model of `circlePolygon`: the ring of coordinates of the produced
GeoJSON polygon, one coordinate per loop index `0 ≤ i ≤ points`. -/
noncomputable def circlePolygon (lon lat radiusMiles : ℝ) (points : ℕ := 64) : List (ℝ × ℝ) :=
  (List.range (points + 1)).map (circleCoord lon lat radiusMiles points)

structure BuyerEvent where
  id : String
  buyer_id : String
  property_id : String
  event_type : EventType
  event_date : CDate
  price : ℚ
  source : EventSource
deriving DecidableEq, Repr

/-- The category parameter: a concrete buyer type or the value "all". -/
inductive TypeFilter
  | all
  | only (t : BuyerType)
deriving DecidableEq, Repr

/-- The seeded demo buyers of the source. -/
def buyers : List Buyer :=
  [⟨"b1", "Evergreen Residential LLC", .flipper, [⟨some "210-555-0187", none⟩]⟩,
   ⟨"b2", "Alamo Rentals Group", .landlord, [⟨some "210-555-0142", none⟩]⟩,
   ⟨"b3", "River City Capital", .cash, [⟨some "210-555-0199", none⟩]⟩,
   ⟨"b4", "Hill Country Flips", .flipper, [⟨none, some "offers@hillcountryflips.com"⟩]⟩]

/-- The seeded demo properties of the source. -/
def properties : List Property :=
  [⟨"p1", "112 Blanco Rd", "San Antonio", "TX", "78212", 29.462, -98.501⟩,
   ⟨"p2", "2744 Briarhurst Dr #38", "Houston", "TX", "77057", 29.741, -95.483⟩,
   ⟨"p3", "501 Woodlawn Ave", "San Antonio", "TX", "78201", 29.458, -98.514⟩,
   ⟨"p4", "2803 W Martin St", "San Antonio", "TX", "78207", 29.422, -98.514⟩,
   ⟨"p5", "133 King William St", "San Antonio", "TX", "78204", 29.410, -98.495⟩,
   ⟨"p6", "845 S Presa St", "San Antonio", "TX", "78210", 29.411, -98.487⟩]

/-- The seeded demo events of the source (dates use 0-based months). -/
def events : List BuyerEvent :=
  [⟨"e1", "b1", "p1", .purchase, ⟨2025, 6, 21⟩, 275000, .county⟩,
   ⟨"e2", "b1", "p3", .purchase, ⟨2025, 4, 10⟩, 245000, .county⟩,
   ⟨"e3", "b1", "p5", .purchase, ⟨2024, 11, 19⟩, 310000, .mls⟩,
   ⟨"e4", "b2", "p4", .purchase, ⟨2025, 2, 2⟩, 190000, .county⟩,
   ⟨"e5", "b2", "p6", .purchase, ⟨2024, 9, 11⟩, 215000, .county⟩,
   ⟨"e6", "b3", "p1", .purchase, ⟨2024, 8, 20⟩, 260000, .county⟩,
   ⟨"e7", "b4", "p6", .purchase, ⟨2025, 7, 5⟩, 330000, .mls⟩]

/-- Model of `properties.find((pp) => pp.id === e.property_id)`. -/
def lookupProp (ps : List Property) (pid : String) : Option Property :=
  ps.find? fun p => p.id == pid

/-- Model of `buyers.find((b) => b.id === ev.buyer_id)`. -/
def lookupBuyer (bs : List Buyer) (bid : String) : Option Buyer :=
  bs.find? fun b => b.id == bid

/-- Errors raised by the dangling-reference crashes of `find(...)!`. -/
inductive DataErr
  | missingProperty
  | missingBuyer
deriving DecidableEq, Repr

/-- The filter predicate of `computeResults` (source line 123):
`e.event_type === "purchase" && withinTime && withinDist`, with
JavaScript left associativity of `&&`. -/
noncomputable def keepEvent (center : GeoPt) (radiusMiles : ℝ) (since : CDate)
    (e : BuyerEvent) (p : Property) : Bool :=
  ((e.event_type == EventType.purchase) && decide (CDate.le since e.event_date)) &&
    decide (distanceMiles center ⟨p.lat, p.lon⟩ ≤ radiusMiles)

/-- Model of the `events.filter` pass (source lines 119 to 124): each
event's property is resolved unconditionally with a non-null assertion, so
a dangling `property_id` aborts the query. -/
noncomputable def filterEvents (ps : List Property) (center : GeoPt) (radiusMiles : ℝ)
    (since : CDate) : List BuyerEvent → Except DataErr (List BuyerEvent)
  | [] => .ok []
  | e :: es =>
    match lookupProp ps e.property_id with
    | none => .error .missingProperty
    | some p =>
      (filterEvents ps center radiusMiles since es).map fun rest =>
        if keepEvent center radiusMiles since e p then e :: rest else rest

/-- A per-buyer accumulator of the `byBuyer` record: the buyer, the deals
pushed so far, and the running `last` date initialized to 1970-01-01. -/
structure BuyerGroup where
  buyer : Buyer
  deals : List BuyerEvent
  last : CDate
deriving DecidableEq, Repr

def epochDate : CDate := ⟨1970, 0, 1⟩

/-- Model of `if (d > byBuyer[...].last) byBuyer[...].last = d`. -/
def maxDate (last d : CDate) : CDate :=
  if CDate.lt last d then d else last

/-- Push one event onto its buyer's accumulator, creating the accumulator
at the end of the insertion-ordered list if the buyer is new. -/
def addEvent (acc : List BuyerGroup) (b : Buyer) (ev : BuyerEvent) : List BuyerGroup :=
  if acc.any fun g => g.buyer.id == b.id then
    acc.map fun g =>
      if g.buyer.id == b.id then ⟨g.buyer, g.deals ++ [ev], maxDate g.last ev.event_date⟩ else g
  else acc ++ [⟨b, [ev], maxDate epochDate ev.event_date⟩]

/-- Negation of the `continue` guard: the event is processed when the
category filter is "all" or the buyer's type equals the requested one. -/
def typeMatches (bt : TypeFilter) (t : BuyerType) : Bool :=
  match bt with
  | .all => true
  | .only c => t == c

/-- The grouping loop over filtered events (source lines 126 to 134): the
buyer is resolved with a non-null assertion before the category guard, so
a dangling `buyer_id` of a filtered event aborts the query. -/
def groupGo (bs : List Buyer) (bt : TypeFilter) (acc : List BuyerGroup) :
    List BuyerEvent → Except DataErr (List BuyerGroup)
  | [] => .ok acc
  | ev :: rest =>
    match lookupBuyer bs ev.buyer_id with
    | none => .error .missingBuyer
    | some b =>
      if typeMatches bt b.buyer_type then groupGo bs bt (addEvent acc b ev) rest
      else groupGo bs bt acc rest

def groupEvents (bs : List Buyer) (bt : TypeFilter) (filtered : List BuyerEvent) :
    Except DataErr (List BuyerGroup) :=
  groupGo bs bt [] filtered

/-- The median computation of `computeResults` (source lines 137 to 139):
ascending numeric sort, `mid = floor(length / 2)`, middle element for odd
length, mean of the two elements around the middle for even length. -/
def medianOfPrices (prices : List ℚ) : ℚ :=
  let s := prices.mergeSort fun a b => decide (a ≤ b)
  let mid := s.length / 2
  if s.length % 2 = 1 then s.getD mid 0 else (s.getD (mid - 1) 0 + s.getD mid 0) / 2

structure ResultRow where
  id : String
  name : String
  buyer_type : BuyerType
  contacts : List Contact
  deals_count : Nat
  last_deal : CDate
  median_price : ℚ
deriving DecidableEq, Repr

/-- The map from a buyer's accumulator to its result row (lines 136-141). -/
def mkRow (g : BuyerGroup) : ResultRow :=
  ⟨g.buyer.id, g.buyer.name, g.buyer.buyer_type, g.buyer.contacts, g.deals.length, g.last,
    medianOfPrices (g.deals.map fun d => d.price)⟩

/-- The sort comparator of line 143 as a non-strict order: `a` may precede
`b` when the comparator value is not positive, that is when `a` has more
deals, or equally many and a last deal at least as recent. -/
def rankLE (a b : ResultRow) : Prop :=
  b.deals_count < a.deals_count ∨
    (a.deals_count = b.deals_count ∧ CDate.le b.last_deal a.last_deal)

instance (a b : ResultRow) : Decidable (rankLE a b) := by
  unfold rankLE; exact inferInstance

def rowLE (a b : ResultRow) : Bool := decide (rankLE a b)

/-- Model of `out.sort(...)` with the line 143 comparator: a stable sort. -/
def sortRows (rows : List ResultRow) : List ResultRow := rows.mergeSort rowLE

/-- The core computation of `computeResults`, with the reference dataset
and the clock reading `now` surfaced as explicit inputs. -/
noncomputable def computeResultsOn (bs : List Buyer) (ps : List Property)
    (evs : List BuyerEvent) (center : GeoPt) (radiusMiles : ℝ) (months : Int)
    (bt : TypeFilter) (now : CDate) : Except DataErr (List ResultRow) :=
  (filterEvents ps center radiusMiles (monthsAgo now months) evs).bind fun filtered =>
    (groupEvents bs bt filtered).map fun groups => sortRows (groups.map mkRow)

/-- `computeResults` as in the source: the core computation closed over the
seeded reference dataset. -/
noncomputable def computeResults (center : GeoPt) (radiusMiles : ℝ) (months : Int)
    (bt : TypeFilter) (now : CDate) : Except DataErr (List ResultRow) :=
  computeResultsOn buyers properties events center radiusMiles months bt now

/-- Modelled from the spec: `median_price` is the middle value of the
ascending-sorted price list for an odd-sized group, and the arithmetic mean
of the two middle values for an even-sized group. -/
def medianSpec (prices : List ℚ) : ℚ :=
  let s := prices.mergeSort fun a b => decide (a ≤ b)
  if prices.length % 2 = 1 then s.getD ((prices.length - 1) / 2) 0
  else (s.getD (prices.length / 2 - 1) 0 + s.getD (prices.length / 2) 0) / 2

/-- A one-buyer test dataset used for concrete evaluations. -/
def cBuyer : Buyer := ⟨"b1", "Buyer One", .flipper, []⟩

/-- A test property located exactly at the test center. -/
def cProp : Property := ⟨"p1", "1 Main St", "San Antonio", "TX", "78201", 29, -98⟩

/-- A purchase event of the test buyer at the test property. -/
def cEvent : BuyerEvent := ⟨"e1", "b1", "p1", .purchase, ⟨2025, 6, 21⟩, 100, .county⟩

/-- The test center, coinciding with the test property's location. -/
def cCenter : GeoPt := ⟨29, -98⟩

/-- A stale purchase event whose `buyer_id` resolves to no buyer. -/
def dEvent : BuyerEvent := ⟨"e9", "ghost", "p1", .purchase, ⟨2020, 0, 1⟩, 100, .county⟩

theorem CDate.le_refl (a : CDate) : CDate.le a a := by
  unfold CDate.le; omega

theorem CDate.le_trans {a b c : CDate} (h1 : CDate.le a b) (h2 : CDate.le b c) :
    CDate.le a c := by
  unfold CDate.le at h1 h2 ⊢; omega

/-- The normalized date built from absolute month index and fixed day
number is monotone in the month index. -/
theorem dateOfMonthIndex_mono {t1 t2 : Int} (d : Nat) (h : t1 ≤ t2) :
    CDate.le (dateOfMonthIndex t1 d) (dateOfMonthIndex t2 d) := by
  rcases eq_or_lt_of_le h with rfl | hlt
  · exact CDate.le_refl _
  · have e1 := Int.ediv_add_emod t1 12
    have e2 := Int.ediv_add_emod t2 12
    have e3 := Int.ediv_add_emod (t1 + 1) 12
    have e4 := Int.ediv_add_emod (t2 + 1) 12
    have p1 := Int.emod_nonneg t1 (by norm_num : (12:Int) ≠ 0)
    have p2 := Int.emod_nonneg t2 (by norm_num : (12:Int) ≠ 0)
    have p3 := Int.emod_nonneg (t1 + 1) (by norm_num : (12:Int) ≠ 0)
    have p4 := Int.emod_nonneg (t2 + 1) (by norm_num : (12:Int) ≠ 0)
    have q1 := Int.emod_lt_of_pos t1 (by norm_num : (0:Int) < 12)
    have q2 := Int.emod_lt_of_pos t2 (by norm_num : (0:Int) < 12)
    have q3 := Int.emod_lt_of_pos (t1 + 1) (by norm_num : (0:Int) < 12)
    have q4 := Int.emod_lt_of_pos (t2 + 1) (by norm_num : (0:Int) < 12)
    unfold dateOfMonthIndex
    split <;> split <;> (dsimp only [CDate.le]; omega)

/-- Model of the `monthsAgo` helper being antitone: looking further back
never yields a later since-date. -/
theorem monthsAgo_antitone (now : CDate) {n1 n2 : Int} (h : n1 ≤ n2) :
    CDate.le (monthsAgo now n2) (monthsAgo now n1) := by
  unfold monthsAgo
  exact dateOfMonthIndex_mono _ (by omega)

theorem distanceMiles_nonneg (a b : GeoPt) : 0 ≤ distanceMiles a b := by
  unfold distanceMiles
  exact mul_nonneg (by norm_num) (Real.arcsin_nonneg.mpr (Real.sqrt_nonneg _))

theorem distanceMiles_lt_20000 (a b : GeoPt) : distanceMiles a b < 20000 := by
  unfold distanceMiles
  have h1 := Real.arcsin_le_pi_div_two (Real.sqrt
    (Real.sin (toRad (b.lat - a.lat) / 2) ^ 2 +
      Real.cos (toRad a.lat) * Real.cos (toRad b.lat) * Real.sin (toRad (b.lon - a.lon) / 2) ^ 2))
  have h2 := Real.pi_le_four
  nlinarith

theorem distanceMiles_self (a : GeoPt) : distanceMiles a a = 0 := by
  unfold distanceMiles toRad
  simp

theorem keepEvent_mono_radius {center : GeoPt} {r1 r2 : ℝ} {since : CDate}
    {e : BuyerEvent} {p : Property} (hr : r1 ≤ r2) :
    keepEvent center r1 since e p = true → keepEvent center r2 since e p = true := by
  unfold keepEvent
  simp only [Bool.and_eq_true, decide_eq_true_eq]
  rintro ⟨⟨h1, h2⟩, h3⟩
  exact ⟨⟨h1, h2⟩, le_trans h3 hr⟩

theorem keepEvent_mono_since {center : GeoPt} {r : ℝ} {since1 since2 : CDate}
    {e : BuyerEvent} {p : Property} (hs : CDate.le since2 since1) :
    keepEvent center r since1 e p = true → keepEvent center r since2 e p = true := by
  unfold keepEvent
  simp only [Bool.and_eq_true, decide_eq_true_eq]
  rintro ⟨⟨h1, h2⟩, h3⟩
  exact ⟨⟨h1, CDate.le_trans hs h2⟩, h3⟩

/-- Two filter passes over the same events whose keep predicates are
pointwise ordered produce sublist-related retained lists. -/
theorem filterEvents_sublist {ps : List Property} {center : GeoPt} {r1 r2 : ℝ}
    {since1 since2 : CDate}
    (hk : ∀ e p, keepEvent center r1 since1 e p = true → keepEvent center r2 since2 e p = true)
    (evs : List BuyerEvent) : ∀ {l1 l2 : List BuyerEvent},
    filterEvents ps center r1 since1 evs = .ok l1 →
    filterEvents ps center r2 since2 evs = .ok l2 → l1.Sublist l2 := by
  induction evs with
  | nil =>
    intro l1 l2 h1 h2
    unfold filterEvents at h1 h2
    cases h1; cases h2
    exact List.Sublist.refl _
  | cons e es ih =>
    intro l1 l2 h1 h2
    unfold filterEvents at h1 h2
    cases hp : lookupProp ps e.property_id with
    | none => rw [hp] at h1; cases h1
    | some p =>
      rw [hp] at h1 h2
      cases hr1 : filterEvents ps center r1 since1 es with
      | error err => rw [hr1] at h1; cases h1
      | ok rest1 =>
        cases hr2 : filterEvents ps center r2 since2 es with
        | error err => rw [hr2] at h2; cases h2
        | ok rest2 =>
          rw [hr1] at h1
          rw [hr2] at h2
          simp only [Except.map] at h1 h2
          have hs := ih hr1 hr2
          cases hb1 : keepEvent center r1 since1 e p with
          | false =>
            rw [hb1] at h1
            simp only [if_neg Bool.false_ne_true] at h1
            cases h1
            cases hb2 : keepEvent center r2 since2 e p with
            | false =>
              rw [hb2] at h2
              simp only [if_neg Bool.false_ne_true] at h2
              cases h2
              exact hs
            | true =>
              rw [hb2] at h2
              simp only [if_pos rfl] at h2
              cases h2
              exact hs.cons e
          | true =>
            have hb2 := hk e p hb1
            rw [hb1] at h1
            rw [hb2] at h2
            simp only [if_pos rfl] at h1 h2
            cases h1
            cases h2
            exact hs.cons₂ e

/-- C6 of the claims: for a fixed center, since-date (hence months and
current date) and category, the filter pass at a smaller radius retains at
most as many events as the pass at a larger radius. -/
theorem radius_monotonicity (ps : List Property) (center : GeoPt) (since : CDate)
    (evs : List BuyerEvent) (r1 r2 : ℝ) (l1 l2 : List BuyerEvent) (hr : r1 < r2)
    (h1 : filterEvents ps center r1 since evs = .ok l1)
    (h2 : filterEvents ps center r2 since evs = .ok l2) : l1.length ≤ l2.length :=
  (filterEvents_sublist (fun _ _ => keepEvent_mono_radius hr.le) evs h1 h2).length_le

theorem radius_monotonicity_witness :
    ((1 : ℝ) < 2 ∧
      filterEvents [] ⟨0, 0⟩ 1 epochDate [] = .ok [] ∧
      filterEvents [] ⟨0, 0⟩ 2 epochDate [] = .ok []) ∧
    ([] : List BuyerEvent).length ≤ ([] : List BuyerEvent).length :=
  ⟨⟨by norm_num, rfl, rfl⟩,
    radius_monotonicity [] ⟨0, 0⟩ epochDate [] 1 2 [] [] (by norm_num) rfl rfl⟩

/-- C7 of the claims: for a fixed center, radius and category, a shorter
lookback window retains at most as many events as a longer one; the
since-date of the shorter window is never earlier than that of the longer
window (`monthsAgo_antitone`), even across calendar rollover. -/
theorem time_monotonicity (ps : List Property) (center : GeoPt) (r : ℝ) (now : CDate)
    (evs : List BuyerEvent) (m1 m2 : Int) (l1 l2 : List BuyerEvent) (hm : m1 < m2)
    (h1 : filterEvents ps center r (monthsAgo now m1) evs = .ok l1)
    (h2 : filterEvents ps center r (monthsAgo now m2) evs = .ok l2) :
    l1.length ≤ l2.length :=
  (filterEvents_sublist
    (fun _ _ => keepEvent_mono_since (monthsAgo_antitone now hm.le)) evs h1 h2).length_le

theorem time_monotonicity_witness :
    ((12 : Int) < 24 ∧
      filterEvents [] ⟨0, 0⟩ 5 (monthsAgo ⟨2025, 9, 12⟩ 12) [] = .ok [] ∧
      filterEvents [] ⟨0, 0⟩ 5 (monthsAgo ⟨2025, 9, 12⟩ 24) [] = .ok []) ∧
    ([] : List BuyerEvent).length ≤ ([] : List BuyerEvent).length :=
  ⟨⟨by norm_num, rfl, rfl⟩,
    time_monotonicity [] ⟨0, 0⟩ 5 ⟨2025, 9, 12⟩ [] 12 24 [] [] (by norm_num) rfl rfl⟩

theorem rowLE_trans (a b c : ResultRow) : rowLE a b → rowLE b c → rowLE a c := by
  unfold rowLE rankLE CDate.le
  simp only [decide_eq_true_eq]
  omega

theorem rowLE_total (a b : ResultRow) : rowLE a b || rowLE b a := by
  unfold rowLE rankLE CDate.le
  simp only [Bool.or_eq_true, decide_eq_true_eq]
  omega

/-- Stability of the model of the JavaScript stable sort: filtering the
sorted list to any class of mutually tied elements gives the same list as
filtering the input, that is, ties keep their input order. -/
theorem filter_mergeSort_eq {α : Type} (le : α → α → Bool)
    (htr : ∀ a b c, le a b → le b c → le a c)
    (hto : ∀ a b, le a b || le b a) (q : α → Bool)
    (hq : ∀ a b, q a = true → q b = true → le a b = true) (l : List α) :
    (l.mergeSort le).filter q = l.filter q := by
  have h1 : List.Sublist (l.filter q) l := List.filter_sublist l
  have hpw : (l.filter q).Pairwise fun a b => le a b = true :=
    List.pairwise_of_forall_mem_list fun a ha b hb =>
      hq a b (List.of_mem_filter ha) (List.of_mem_filter hb)
  have h2 := List.sublist_mergeSort htr hto hpw h1
  have h3 := h2.filter q
  have h4 : (l.filter q).filter q = l.filter q :=
    List.filter_eq_self.mpr fun a ha => List.of_mem_filter ha
  rw [h4] at h3
  have h5 : ((l.mergeSort le).filter q).length = (l.filter q).length :=
    ((List.mergeSort_perm l le).filter q).length_eq
  exact (h3.eq_of_length h5.symm).symm

/-- Destructuring of a successful run of the core computation into its
filter, grouping and sorting stages. -/
theorem computeResultsOn_ok {bs : List Buyer} {ps : List Property} {evs : List BuyerEvent}
    {center : GeoPt} {r : ℝ} {m : Int} {bt : TypeFilter} {now : CDate} {rows : List ResultRow}
    (h : computeResultsOn bs ps evs center r m bt now = .ok rows) :
    ∃ filtered groups, filterEvents ps center r (monthsAgo now m) evs = .ok filtered ∧
      groupEvents bs bt filtered = .ok groups ∧ rows = sortRows (groups.map mkRow) := by
  unfold computeResultsOn at h
  cases hf : filterEvents ps center r (monthsAgo now m) evs with
  | error e => rw [hf] at h; cases h
  | ok filtered =>
    rw [hf] at h
    simp only [Except.bind] at h
    cases hg : groupEvents bs bt filtered with
    | error e => rw [hg] at h; cases h
    | ok groups =>
      rw [hg] at h
      simp only [Except.map] at h
      cases h
      exact ⟨filtered, groups, rfl, hg, rfl⟩

/-- C2 of the claims: a successful query's rows are sorted descending by
deal count with ties descending by most recent deal date, and rows tied on
both keys keep the order of the group-construction stage, whose groups are
appended in the order of each buyer's first qualifying filtered event. -/
theorem ranking_order (bs : List Buyer) (ps : List Property) (evs : List BuyerEvent)
    (center : GeoPt) (r : ℝ) (m : Int) (bt : TypeFilter) (now : CDate) (rows : List ResultRow)
    (h : computeResultsOn bs ps evs center r m bt now = .ok rows) :
    rows.Pairwise rankLE ∧
    ∃ filtered groups,
      filterEvents ps center r (monthsAgo now m) evs = .ok filtered ∧
      groupEvents bs bt filtered = .ok groups ∧
      rows = sortRows (groups.map mkRow) ∧
      ∀ dc d, rows.filter (fun row => row.deals_count == dc && row.last_deal == d) =
        (groups.map mkRow).filter (fun row => row.deals_count == dc && row.last_deal == d) := by
  obtain ⟨filtered, groups, hf, hg, hrows⟩ := computeResultsOn_ok h
  subst hrows
  constructor
  · unfold sortRows
    exact (List.sorted_mergeSort rowLE_trans rowLE_total _).imp fun hab => of_decide_eq_true hab
  · refine ⟨filtered, groups, hf, hg, rfl, fun dc d => ?_⟩
    unfold sortRows
    apply filter_mergeSort_eq rowLE rowLE_trans rowLE_total
    intro a b ha hb
    simp only [Bool.and_eq_true, beq_iff_eq] at ha hb
    unfold rowLE rankLE
    simp only [decide_eq_true_eq]
    right
    refine ⟨by rw [ha.1, hb.1], ?_⟩
    rw [ha.2, hb.2]
    exact CDate.le_refl d

/-- A query over the empty reference dataset succeeds with no rows. -/
theorem computeResultsOn_empty (center : GeoPt) (r : ℝ) (m : Int) (bt : TypeFilter)
    (now : CDate) : computeResultsOn [] [] [] center r m bt now = .ok [] := by
  simp [computeResultsOn, filterEvents, groupEvents, groupGo, sortRows, Except.bind, Except.map]

theorem ranking_order_witness :
    computeResultsOn [] [] [] ⟨0, 0⟩ 1 12 .all ⟨2025, 9, 12⟩ = .ok [] ∧
    (([] : List ResultRow).Pairwise rankLE ∧
      ∃ filtered groups,
        filterEvents [] ⟨0, 0⟩ 1 (monthsAgo ⟨2025, 9, 12⟩ 12) [] = .ok filtered ∧
        groupEvents [] .all filtered = .ok groups ∧
        ([] : List ResultRow) = sortRows (groups.map mkRow) ∧
        ∀ dc d, ([] : List ResultRow).filter
            (fun row => row.deals_count == dc && row.last_deal == d) =
          (groups.map mkRow).filter (fun row => row.deals_count == dc && row.last_deal == d)) :=
  ⟨computeResultsOn_empty ⟨0, 0⟩ 1 12 .all ⟨2025, 9, 12⟩,
    ranking_order [] [] [] ⟨0, 0⟩ 1 12 .all ⟨2025, 9, 12⟩ []
      (computeResultsOn_empty ⟨0, 0⟩ 1 12 .all ⟨2025, 9, 12⟩)⟩

/-- Every member of the grouped output is the accumulator of a buyer added
by `addEvent`, so its buyer is the added one or one already present. -/
theorem addEvent_buyer_mem (acc : List BuyerGroup) (b : Buyer) (ev : BuyerEvent) :
    ∀ g ∈ addEvent acc b ev, g.buyer = b ∨ g.buyer ∈ acc.map BuyerGroup.buyer := by
  intro g hg
  unfold addEvent at hg
  split at hg
  · rw [List.mem_map] at hg
    obtain ⟨g1, hg1, heq⟩ := hg
    by_cases hid : (g1.buyer.id == b.id) = true
    · rw [if_pos hid] at heq
      right
      have hb2 : g.buyer = g1.buyer := by rw [← heq]
      rw [hb2]
      exact List.mem_map_of_mem _ hg1
    · rw [if_neg hid] at heq
      right
      have hb2 : g.buyer = g1.buyer := by rw [← heq]
      rw [hb2]
      exact List.mem_map_of_mem _ hg1
  · rw [List.mem_append] at hg
    rcases hg with hmem | hnew
    · right
      exact List.mem_map_of_mem _ hmem
    · left
      rw [List.mem_singleton] at hnew
      rw [hnew]

/-- Effect of `addEvent` on the insertion-ordered list of buyer ids: it is
unchanged when the buyer already has a group, and gets the new id appended
otherwise. -/
theorem addEvent_ids (acc : List BuyerGroup) (b : Buyer) (ev : BuyerEvent) :
    (addEvent acc b ev).map (fun g => g.buyer.id) = acc.map (fun g => g.buyer.id) ∨
    ((addEvent acc b ev).map (fun g => g.buyer.id) = acc.map (fun g => g.buyer.id) ++ [b.id] ∧
      b.id ∉ acc.map (fun g => g.buyer.id)) := by
  unfold addEvent
  split
  · left
    rw [List.map_map]
    apply List.map_congr_left
    intro g _
    by_cases hid : (g.buyer.id == b.id) = true
    · simp only [Function.comp_apply, if_pos hid]
    · simp only [Function.comp_apply, if_neg hid]
  · right
    rename_i hany
    constructor
    · rw [List.map_append]
      rfl
    · intro hmem
      apply hany
      rw [List.any_eq_true]
      rw [List.mem_map] at hmem
      obtain ⟨g, hgmem, hgid⟩ := hmem
      exact ⟨g, hgmem, by rw [beq_iff_eq]; exact hgid⟩

/-- Invariant of the grouping loop for a concrete category filter: every
produced group belongs to a buyer of the requested type. -/
theorem groupGo_types (bs : List Buyer) (c : BuyerType) (evs : List BuyerEvent) :
    ∀ acc : List BuyerGroup, (∀ g ∈ acc, g.buyer.buyer_type = c) →
    ∀ groups : List BuyerGroup, groupGo bs (.only c) acc evs = .ok groups →
    ∀ g ∈ groups, g.buyer.buyer_type = c := by
  induction evs with
  | nil =>
    intro acc hacc groups h
    unfold groupGo at h
    cases h
    exact hacc
  | cons ev rest ih =>
    intro acc hacc groups h
    unfold groupGo at h
    cases hb : lookupBuyer bs ev.buyer_id with
    | none => rw [hb] at h; cases h
    | some b =>
      rw [hb] at h
      dsimp only at h
      by_cases ht : typeMatches (.only c) b.buyer_type = true
      · rw [if_pos ht] at h
        refine ih (addEvent acc b ev) ?_ groups h
        intro g hg
        rcases addEvent_buyer_mem acc b ev g hg with heq | hmem
        · rw [heq]
          unfold typeMatches at ht
          exact beq_iff_eq.mp ht
        · rw [List.mem_map] at hmem
          obtain ⟨g1, hg1, heq⟩ := hmem
          rw [← heq]
          exact hacc g1 hg1
      · rw [if_neg ht] at h
        exact ih acc hacc groups h

/-- Invariant of the grouping loop: the buyer ids of the accumulated groups
stay pairwise distinct. -/
theorem groupGo_nodup (bs : List Buyer) (bt : TypeFilter) (evs : List BuyerEvent) :
    ∀ acc : List BuyerGroup, (acc.map fun g => g.buyer.id).Nodup →
    ∀ groups : List BuyerGroup, groupGo bs bt acc evs = .ok groups →
    (groups.map fun g => g.buyer.id).Nodup := by
  induction evs with
  | nil =>
    intro acc hacc groups h
    unfold groupGo at h
    cases h
    exact hacc
  | cons ev rest ih =>
    intro acc hacc groups h
    unfold groupGo at h
    cases hb : lookupBuyer bs ev.buyer_id with
    | none => rw [hb] at h; cases h
    | some b =>
      rw [hb] at h
      dsimp only at h
      by_cases ht : typeMatches bt b.buyer_type = true
      · rw [if_pos ht] at h
        refine ih (addEvent acc b ev) ?_ groups h
        rcases addEvent_ids acc b ev with heq | ⟨heq, hnot⟩
        · rw [heq]; exact hacc
        · rw [heq, List.nodup_append]
          exact ⟨hacc, List.nodup_singleton _, by
            intro a ha hb2
            rw [List.mem_singleton] at hb2
            exact hnot (hb2 ▸ ha)⟩
      · rw [if_neg ht] at h
        exact ih acc hacc groups h

/-- C3 of the claims: when the category parameter is a concrete buyer type,
every row of a successful query result carries that type. -/
theorem category_partition (bs : List Buyer) (ps : List Property) (evs : List BuyerEvent)
    (center : GeoPt) (r : ℝ) (m : Int) (c : BuyerType) (now : CDate) (rows : List ResultRow)
    (h : computeResultsOn bs ps evs center r m (.only c) now = .ok rows) :
    rows.all (fun row => row.buyer_type == c) = true := by
  obtain ⟨filtered, groups, hf, hg, hrows⟩ := computeResultsOn_ok h
  subst hrows
  rw [List.all_eq_true]
  intro row hrow
  unfold sortRows at hrow
  rw [List.mem_mergeSort, List.mem_map] at hrow
  obtain ⟨g, hgmem, hrow⟩ := hrow
  have hc := groupGo_types bs c filtered [] (by simp) groups hg g hgmem
  rw [← hrow]
  unfold mkRow
  rw [beq_iff_eq]
  exact hc

theorem category_partition_witness :
    computeResultsOn [] [] [] ⟨0, 0⟩ 1 12 (.only .flipper) ⟨2025, 9, 12⟩ = .ok [] ∧
    ([] : List ResultRow).all (fun row => row.buyer_type == BuyerType.flipper) = true :=
  ⟨computeResultsOn_empty ⟨0, 0⟩ 1 12 (.only .flipper) ⟨2025, 9, 12⟩,
    category_partition [] [] [] ⟨0, 0⟩ 1 12 .flipper ⟨2025, 9, 12⟩ []
      (computeResultsOn_empty ⟨0, 0⟩ 1 12 (.only .flipper) ⟨2025, 9, 12⟩)⟩

/-- C10 of the claims: no buyer id appears in two rows of a successful
query result. -/
theorem no_duplicate_buyers (bs : List Buyer) (ps : List Property) (evs : List BuyerEvent)
    (center : GeoPt) (r : ℝ) (m : Int) (bt : TypeFilter) (now : CDate) (rows : List ResultRow)
    (h : computeResultsOn bs ps evs center r m bt now = .ok rows) :
    (rows.map fun row => row.id).Nodup := by
  obtain ⟨filtered, groups, hf, hg, hrows⟩ := computeResultsOn_ok h
  subst hrows
  have h1 : (groups.map fun g => g.buyer.id).Nodup := by
    unfold groupEvents at hg
    exact groupGo_nodup bs bt filtered [] (by simp) groups hg
  have h2 : ((groups.map mkRow).map fun row => row.id) = groups.map fun g => g.buyer.id := by
    rw [List.map_map]
    rfl
  have h3 : List.Perm ((sortRows (groups.map mkRow)).map fun row => row.id)
      ((groups.map mkRow).map fun row => row.id) :=
    (List.mergeSort_perm _ _).map _
  exact h3.nodup_iff.mpr (h2 ▸ h1)

theorem no_duplicate_buyers_witness :
    computeResultsOn [] [] [] ⟨0, 0⟩ 1 12 .all ⟨2025, 9, 12⟩ = .ok [] ∧
    (([] : List ResultRow).map fun row => row.id).Nodup :=
  ⟨computeResultsOn_empty ⟨0, 0⟩ 1 12 .all ⟨2025, 9, 12⟩,
    no_duplicate_buyers [] [] [] ⟨0, 0⟩ 1 12 .all ⟨2025, 9, 12⟩ []
      (computeResultsOn_empty ⟨0, 0⟩ 1 12 .all ⟨2025, 9, 12⟩)⟩

/-- C1 of the claims: the median produced for any buyer group is the
specified median of the group's prices, that is the middle value of the
ascending-sorted price list for an odd-sized group and the arithmetic mean
of the two middle values for an even-sized group; in particular prices
100000, 200000 and 300000 give 200000-style behaviour on the concrete
lists of the spec: [100, 200, 300] yields 200 and [100, 200] yields 150. -/
theorem median_correct :
    (∀ g : BuyerGroup, (mkRow g).median_price = medianSpec (g.deals.map fun d => d.price)) ∧
    medianOfPrices [100, 200, 300] = 200 ∧ medianOfPrices [100, 200] = 150 := by
  refine ⟨fun g => ?_, ?_, ?_⟩
  · show medianOfPrices (g.deals.map fun d => d.price) = medianSpec (g.deals.map fun d => d.price)
    generalize g.deals.map (fun d => d.price) = l
    simp only [medianOfPrices, medianSpec, List.length_mergeSort]
    by_cases hodd : l.length % 2 = 1
    · rw [if_pos hodd, if_pos hodd]
      have hidx : l.length / 2 = (l.length - 1) / 2 := by omega
      rw [hidx]
    · rw [if_neg hodd, if_neg hodd]
  · simp only [medianOfPrices]
    rw [List.mergeSort_of_sorted (by decide)]
    norm_num [List.getD]
  · simp only [medianOfPrices]
    rw [List.mergeSort_of_sorted (by decide)]
    norm_num [List.getD]

/-- C5 of the claims: the generated boundary ring has exactly points+1
coordinates and its first coordinate equals its last one. -/
theorem boundary_closure (lon lat radiusMiles : ℝ) (points : ℕ) :
    (circlePolygon lon lat radiusMiles points).length = points + 1 ∧
    (circlePolygon lon lat radiusMiles points)[0]? =
      (circlePolygon lon lat radiusMiles points)[points]? := by
  constructor
  · unfold circlePolygon
    rw [List.length_map, List.length_range]
  · unfold circlePolygon
    rcases Nat.eq_zero_or_pos points with rfl | hpos
    · rfl
    · have hne : (points : ℝ) ≠ 0 := Nat.cast_ne_zero.mpr hpos.ne'
      have hcc : circleCoord lon lat radiusMiles points 0 =
          circleCoord lon lat radiusMiles points points := by
        unfold circleCoord
        simp only [Nat.cast_zero, zero_div, zero_mul, div_self hne, one_mul,
          Real.cos_zero, Real.sin_zero, Real.cos_two_pi, Real.sin_two_pi, mul_one]
      rw [List.getElem?_map, List.getElem?_map, List.getElem?_range (by omega),
        List.getElem?_range (by omega)]
      show some (circleCoord lon lat radiusMiles points 0) =
        some (circleCoord lon lat radiusMiles points points)
      rw [hcc]

theorem keepEvent_false_of_neg {center : GeoPt} {r : ℝ} {since : CDate}
    {e : BuyerEvent} {p : Property} (hr : r < 0) :
    keepEvent center r since e p = false := by
  unfold keepEvent
  have hd : decide (distanceMiles center ⟨p.lat, p.lon⟩ ≤ r) = false :=
    decide_eq_false (not_le.mpr (lt_of_lt_of_le hr (distanceMiles_nonneg _ _)))
  rw [hd, Bool.and_false]

/-- With a negative radius the filter pass retains nothing, provided every
event's property resolves (otherwise the pass crashes first). -/
theorem filterEvents_nil_of_neg {ps : List Property} {center : GeoPt} {r : ℝ}
    {since : CDate} (hr : r < 0) :
    ∀ evs : List BuyerEvent, (∀ e ∈ evs, (lookupProp ps e.property_id).isSome = true) →
    filterEvents ps center r since evs = .ok [] := by
  intro evs hlook
  induction evs with
  | nil => rfl
  | cons e es ih =>
    unfold filterEvents
    cases hp : lookupProp ps e.property_id with
    | none =>
      have := hlook e (List.mem_cons_self e es)
      rw [hp] at this
      cases this
    | some p =>
      rw [ih fun e' he' => hlook e' (List.mem_cons_of_mem e he')]
      simp only [Except.map]
      rw [keepEvent_false_of_neg hr]
      rfl

/-- With a negative radius the whole query returns the normal empty result
whenever every event's property reference resolves. -/
theorem computeResultsOn_nil_of_neg {bs : List Buyer} {ps : List Property}
    {evs : List BuyerEvent} {center : GeoPt} {r : ℝ} {m : Int} {bt : TypeFilter}
    {now : CDate} (hr : r < 0)
    (hlook : ∀ e ∈ evs, (lookupProp ps e.property_id).isSome = true) :
    computeResultsOn bs ps evs center r m bt now = .ok [] := by
  unfold computeResultsOn
  rw [filterEvents_nil_of_neg hr evs hlook]
  show Except.ok (sortRows []) = Except.ok []
  rw [show sortRows [] = [] from List.mergeSort_nil]

theorem circlePolygon_length (lon lat radiusMiles : ℝ) (points : ℕ) :
    (circlePolygon lon lat radiusMiles points).length = points + 1 := by
  unfold circlePolygon
  rw [List.length_map, List.length_range]

/-- Counterexample to C8 as stated: the code has no input validation.  A
seeded query with negative radius does not fail with any error: it returns
the normal empty result, and the boundary generator still returns a full
65-point ring rather than failing. -/
theorem invalid_argument_counterexample :
    computeResults ⟨29.4241, -98.4936⟩ (-1) 12 .all ⟨2025, 9, 12⟩ = .ok [] ∧
    (circlePolygon (-98.4936) 29.4241 (-1) 64).length = 65 :=
  ⟨computeResultsOn_nil_of_neg (by norm_num) (by decide),
    circlePolygon_length (-98.4936) 29.4241 (-1) 64⟩

/-- C8 amended: degenerate inputs are not rejected.  A query with negative
radius succeeds with the normal empty result whenever every property
reference resolves (no InvalidArgument error exists in the code), and the
boundary generator accepts a non-positive radius, still producing its
points+1 ring. -/
theorem degenerate_inputs_no_error (bs : List Buyer) (ps : List Property)
    (evs : List BuyerEvent) (center : GeoPt) (r : ℝ) (m : Int) (bt : TypeFilter)
    (now : CDate) (lon lat : ℝ) (points : ℕ) (hr : r < 0)
    (hlook : ∀ e ∈ evs, (lookupProp ps e.property_id).isSome = true) :
    computeResultsOn bs ps evs center r m bt now = .ok [] ∧
    (circlePolygon lon lat r points).length = points + 1 :=
  ⟨computeResultsOn_nil_of_neg hr hlook, circlePolygon_length lon lat r points⟩

theorem degenerate_inputs_no_error_witness :
    ((-1 : ℝ) < 0 ∧ ∀ e ∈ ([] : List BuyerEvent), (lookupProp [] e.property_id).isSome = true) ∧
    (computeResultsOn [] [] [] cCenter (-1) 12 .all ⟨2025, 9, 12⟩ = .ok [] ∧
      (circlePolygon 0 0 (-1) 64).length = 64 + 1) :=
  ⟨⟨by norm_num, by simp⟩,
    degenerate_inputs_no_error [] [] [] cCenter (-1) 12 .all ⟨2025, 9, 12⟩ 0 0 64
      (by norm_num) (by simp)⟩

/-- For any dataset containing an event whose property reference does not
resolve, the filter pass aborts with the missing-property error. -/
theorem filterEvents_error_of_missing (ps : List Property) (center : GeoPt) (r : ℝ)
    (since : CDate) : ∀ evs : List BuyerEvent,
    (∃ e ∈ evs, lookupProp ps e.property_id = none) →
    filterEvents ps center r since evs = .error .missingProperty := by
  intro evs
  induction evs with
  | nil => intro h; simp at h
  | cons e es ih =>
    intro h
    unfold filterEvents
    cases hp : lookupProp ps e.property_id with
    | none => rfl
    | some p =>
      obtain ⟨e1, he1, hnone⟩ := h
      rcases List.mem_cons.mp he1 with heq | hmem
      · rw [heq] at hnone
        rw [hp] at hnone
        cases hnone
      · rw [ih ⟨e1, hmem, hnone⟩]
        rfl

/-- C9 amended: an event with a dangling `property_id` anywhere in the
dataset makes the query fail with the missing-property error, distinct by
constructor from the missing-buyer error; but an event with a dangling
`buyer_id` only crashes the query if the event passes the radius and time
filter, and otherwise is silently ignored. -/
theorem missing_property_error (bs : List Buyer) (ps : List Property) (evs : List BuyerEvent)
    (center : GeoPt) (r : ℝ) (m : Int) (bt : TypeFilter) (now : CDate)
    (h : ∃ e ∈ evs, lookupProp ps e.property_id = none) :
    computeResultsOn bs ps evs center r m bt now = .error .missingProperty := by
  unfold computeResultsOn
  rw [filterEvents_error_of_missing ps center r (monthsAgo now m) evs h]
  rfl

theorem missing_property_error_witness :
    (∃ e ∈ [dEvent], lookupProp [] e.property_id = none) ∧
    computeResultsOn [] [] [dEvent] cCenter 2 12 .all ⟨2025, 9, 12⟩ =
      .error .missingProperty :=
  ⟨⟨dEvent, List.mem_cons_self _ _, rfl⟩,
    missing_property_error [] [] [dEvent] cCenter 2 12 .all ⟨2025, 9, 12⟩
      ⟨dEvent, List.mem_cons_self _ _, rfl⟩⟩

/-- Counterexample to C9 as stated: a purchase event whose `buyer_id`
resolves to no buyer is silently passed over when it fails the time
filter: the query returns a normal empty result instead of failing. -/
theorem integrity_counterexample :
    computeResultsOn [] [cProp] [dEvent] cCenter 2 12 .all ⟨2025, 9, 12⟩ = .ok [] := by
  have hm : monthsAgo ⟨2025, 9, 12⟩ 12 = ⟨2024, 9, 12⟩ := by decide
  have hf : filterEvents [cProp] cCenter 2 ⟨2024, 9, 12⟩ [dEvent] = .ok [] := by
    unfold filterEvents
    rw [show lookupProp [cProp] dEvent.property_id = some cProp from rfl]
    rw [show filterEvents [cProp] cCenter 2 ⟨2024, 9, 12⟩ [] = .ok [] from rfl]
    simp only [Except.map]
    rw [show keepEvent cCenter 2 ⟨2024, 9, 12⟩ dEvent cProp = false from rfl]
    rfl
  unfold computeResultsOn
  rw [hm, hf]
  show Except.ok (sortRows []) = Except.ok []
  rw [show sortRows [] = [] from List.mergeSort_nil]

theorem cDist0 : distanceMiles cCenter ⟨cProp.lat, cProp.lon⟩ = 0 :=
  distanceMiles_self cCenter

/-- The test event is kept by the filter for the since-date 2024-10-12:
it is a purchase, recent enough, and at distance zero from the center. -/
theorem keep_cEvent : keepEvent cCenter 2 ⟨2024, 9, 12⟩ cEvent cProp = true := by
  unfold keepEvent
  rw [show decide (distanceMiles cCenter ⟨cProp.lat, cProp.lon⟩ ≤ (2 : ℝ)) = true from
    decide_eq_true (by rw [cDist0]; norm_num)]
  rw [Bool.and_true]
  decide

theorem filter_cEvent_kept :
    filterEvents [cProp] cCenter 2 ⟨2024, 9, 12⟩ [cEvent] = .ok [cEvent] := by
  unfold filterEvents
  rw [show lookupProp [cProp] cEvent.property_id = some cProp from rfl]
  rw [show filterEvents [cProp] cCenter 2 ⟨2024, 9, 12⟩ [] = .ok [] from rfl]
  simp only [Except.map]
  rw [keep_cEvent]
  rfl

theorem filter_cEvent_stale :
    filterEvents [cProp] cCenter 2 ⟨2025, 9, 12⟩ [cEvent] = .ok [] := by
  unfold filterEvents
  rw [show lookupProp [cProp] cEvent.property_id = some cProp from rfl]
  rw [show filterEvents [cProp] cCenter 2 ⟨2025, 9, 12⟩ [] = .ok [] from rfl]
  simp only [Except.map]
  rw [show keepEvent cCenter 2 ⟨2025, 9, 12⟩ cEvent cProp = false from rfl]
  rfl

theorem mkRow_cGroup : mkRow ⟨cBuyer, [cEvent], ⟨2025, 6, 21⟩⟩ =
    ⟨"b1", "Buyer One", .flipper, [], 1, ⟨2025, 6, 21⟩, 100⟩ := by
  simp only [mkRow, cBuyer, cEvent, List.map_cons, List.map_nil, medianOfPrices,
    List.mergeSort_singleton, List.length_singleton]
  norm_num [List.getD]

/-- Counterexample to C4 as stated: two runs with the same reference
dataset and the same center, radius, months and category parameters return
different results when the clock reads different dates, because the code
derives the since-date from the wall clock inside `monthsAgo`. -/
theorem purity_counterexample :
    computeResultsOn [cBuyer] [cProp] [cEvent] cCenter 2 12 .all ⟨2025, 9, 12⟩ ≠
      computeResultsOn [cBuyer] [cProp] [cEvent] cCenter 2 12 .all ⟨2026, 9, 12⟩ := by
  have h1 : computeResultsOn [cBuyer] [cProp] [cEvent] cCenter 2 12 .all ⟨2025, 9, 12⟩ =
      .ok [⟨"b1", "Buyer One", .flipper, [], 1, ⟨2025, 6, 21⟩, 100⟩] := by
    unfold computeResultsOn
    rw [show monthsAgo ⟨2025, 9, 12⟩ 12 = ⟨2024, 9, 12⟩ from rfl, filter_cEvent_kept]
    simp only [Except.bind]
    rw [show groupEvents [cBuyer] .all [cEvent] =
      .ok [⟨cBuyer, [cEvent], ⟨2025, 6, 21⟩⟩] from rfl]
    simp only [Except.map, List.map_cons, List.map_nil]
    unfold sortRows
    rw [List.mergeSort_singleton, mkRow_cGroup]
  have h2 : computeResultsOn [cBuyer] [cProp] [cEvent] cCenter 2 12 .all ⟨2026, 9, 12⟩ =
      .ok [] := by
    unfold computeResultsOn
    rw [show monthsAgo ⟨2026, 9, 12⟩ 12 = ⟨2025, 9, 12⟩ from rfl, filter_cEvent_stale]
    show Except.ok (sortRows []) = Except.ok []
    rw [show sortRows [] = [] from List.mergeSort_nil]
  rw [h1, h2]
  simp

/-- C4 amended: the core computation is a pure function of the reference
dataset, the query parameters and the current date read from the clock;
with the clock reading surfaced as an input, runs on equal inputs coincide
exactly, including the relative order of tied rows. -/
theorem purity_with_clock (bs : List Buyer) (ps : List Property) (evs : List BuyerEvent)
    (center : GeoPt) (r : ℝ) (m : Int) (bt : TypeFilter) (now1 now2 : CDate)
    (h : now1 = now2) :
    computeResultsOn bs ps evs center r m bt now1 =
      computeResultsOn bs ps evs center r m bt now2 := by
  rw [h]

theorem purity_with_clock_witness :
    (⟨2025, 9, 12⟩ : CDate) = ⟨2025, 9, 12⟩ ∧
    computeResultsOn buyers properties events ⟨29.4241, -98.4936⟩ 2 12 .all ⟨2025, 9, 12⟩ =
      computeResultsOn buyers properties events ⟨29.4241, -98.4936⟩ 2 12 .all ⟨2025, 9, 12⟩ :=
  ⟨rfl, purity_with_clock buyers properties events ⟨29.4241, -98.4936⟩ 2 12 .all
    ⟨2025, 9, 12⟩ ⟨2025, 9, 12⟩ rfl⟩
